import Mathlib

/-!
Shallow embedding of the `WebhookClient` core of the dialogflow-fulfillment
library (src/dialogflow-fulfillment.js) and proofs about its behaviour.

Conventions of the embedding:
* JavaScript strings are modelled by `String`; the empty string is the only
  falsy string, which matches JS truthiness for strings made of Unicode
  scalar values (string lengths are taken on `String.data`, so the model is
  faithful for strings whose UTF-16 length equals their scalar count).
* A JS value that may be `undefined`/`null` is modelled by `Option`;
  `none` stands for an absent (falsy) value.
* Methods that `throw` are modelled in `Except String`, carrying the thrown
  message; methods that mutate `this` are modelled by returning the new state.
* The response-builder module and the two version agents are not part of the
  sources; the few facts about them the core depends on are modelled from the
  spec and marked as such in their doc comments.
-/

namespace DF

/-- A JavaScript value, as far as the truthiness tests of the core inspect it.
Objects are collapsed to one constructor: the core only ever asks whether a
field is truthy, never looks inside. `undefined` is modelled by an absent
`Option` at the use sites. -/
inductive JsVal where
  | vNull
  | vBool (b : Bool)
  | vNum (n : Int)
  | vStr (s : String)
  | vObj
  deriving DecidableEq, Repr

/-- JS truthiness of a present value (`null`, `false`, `0`, `""` are falsy). -/
def truthy : JsVal → Bool
  | .vNull => false
  | .vBool b => b
  | .vNum n => n != 0
  | .vStr s => s != ""
  | .vObj => true

/-- JS truthiness of a possibly absent value (`undefined` is falsy). -/
def truthyOpt : Option JsVal → Bool
  | none => false
  | some v => truthy v

/-- Modelled from the spec: the "unspecified" sentinel of the fixed platform
enumeration exposed by the response-builder module (not under src/). -/
def PLATFORM_UNSPECIFIED : String := "PLATFORM_UNSPECIFIED"

/-- Modelled from the spec: the voice-assistant platform identifier of the
platform enumeration (not under src/). -/
def ACTIONS_ON_GOOGLE : String := "ACTIONS_ON_GOOGLE"

/-- Modelled from the spec: the fixed set of the eight supported rich-message
platforms declared by the response-builder module (not under src/); the
voice-assistant platform belongs to it. -/
def SUPPORTED_RICH_MESSAGE_PLATFORMS : List String :=
  [ACTIONS_ON_GOOGLE, "FACEBOOK", "SLACK", "TELEGRAM", "KIK", "SKYPE",
   "LINE", "VIBER"]

/-- Modelled from the spec: the Response Element Model of the response-builder
module (not under src/) — a closed tagged variant Text / Card / Image /
Suggestions / Payload; `Suggestions` and `Payload` carry a platform tag, where
`""` models an absent tag, and `Suggestions` carries an ordered reply list. -/
inductive RichResponse where
  | text (t : String)
  | card (title : String) (subtitle imageUrl : Option String)
  | image (imageUrl : String)
  | suggestions (platform : String) (replies : List String)
  | payload (platform : String) (content : String)
  deriving DecidableEq, Repr

/-- Whether an element is a `TextResponse` (the `instanceof TextResponse`
test of `send_`). -/
def isText : RichResponse → Bool
  | .text _ => true
  | _ => false

/-- The platform test `existingSuggestion_` / `existingPayload_` run on each
accumulated element: an absent or unspecified element tag matches an absent or
unspecified query, otherwise the query must equal the element tag. -/
def platformMatch (platform respPlatform : String) : Bool :=
  ((respPlatform == "" || respPlatform == PLATFORM_UNSPECIFIED) &&
      (platform == "" || platform == PLATFORM_UNSPECIFIED)) ||
    platform == respPlatform

/-- `WebhookClient.existingSuggestion_`: the first accumulated `Suggestions`
element whose platform tag matches the query. -/
def existingSuggestion_ (msgs : List RichResponse) (platform : String) :
    Option RichResponse :=
  msgs.find? fun r =>
    match r with
    | .suggestions respPlatform _ => platformMatch platform respPlatform
    | _ => false

/-- `WebhookClient.existingPayload_`: the first accumulated `Payload` element
whose platform tag matches the query. -/
def existingPayload_ (msgs : List RichResponse) (platform : String) :
    Option RichResponse :=
  msgs.find? fun r =>
    match r with
    | .payload respPlatform _ => platformMatch platform respPlatform
    | _ => false

/-- The merge step of `WebhookClient.add`:
`existingSuggestion_(response.platform).addReply_(response.replies[0])` —
append the first reply of the incoming element to the first accumulated
`Suggestions` element whose tag matches.  `addReply_` is modelled from the
spec (it appends one reply to the reply list).  `replies[0]` of an empty JS
array is `undefined`; the `take 1` form is faithful for incoming elements
that carry at least one reply. -/
def mergeFirstSugg (msgs : List RichResponse) (platform : String)
    (newReplies : List String) : List RichResponse :=
  match msgs with
  | [] => []
  | r :: rest =>
    match r with
    | .suggestions respPlatform replies =>
      if platformMatch platform respPlatform then
        RichResponse.suggestions respPlatform (replies ++ newReplies.take 1)
          :: rest
      else r :: mergeFirstSugg rest platform newReplies
    | _ => r :: mergeFirstSugg rest platform newReplies

/-- Argument of `WebhookClient.add`: a raw string or a rich-response element
(the "unknown response type" branch is unreachable over this closed type). -/
inductive AddArg where
  | str (s : String)
  | rich (r : RichResponse)
  deriving DecidableEq, Repr

/-- `WebhookClient.add`: wrap a string into a `Text` element; merge a
`Suggestions` element into an existing matching one; append anything else. -/
def add (msgs : List RichResponse) (response : AddArg) : List RichResponse :=
  let response := match response with
    | .str s => RichResponse.text s
    | .rich r => r
  match response with
  | .suggestions platform replies =>
    if (existingSuggestion_ msgs platform).isSome then
      mergeFirstSugg msgs platform replies
    else
      msgs ++ [RichResponse.suggestions platform replies]
  | r => msgs ++ [r]

/-- A sequence of `add` calls, applied in call order. -/
def addAll (msgs : List RichResponse) (adds : List AddArg) :
    List RichResponse :=
  adds.foldl add msgs

/-- Projection used by the statements: the `(platform, replies)` pairs of the
`Suggestions` elements of a sequence, in order. -/
def suggsOf (msgs : List RichResponse) : List (String × List String) :=
  msgs.filterMap fun r =>
    match r with
    | .suggestions p replies => some (p, replies)
    | _ => none

/-- Projection used by the statements: the `(platform, replies)` pairs of the
`Suggestions` elements among a sequence of `add` arguments, in call order. -/
def suggAdds (adds : List AddArg) : List (String × List String) :=
  adds.filterMap fun a =>
    match a with
    | .rich (.suggestions p replies) => some (p, replies)
    | _ => none

/-- An outgoing context as stored by the Context Store
(`{name, lifespanCount?, parameters?}`; only the name is inspected by the
operations proved about). -/
structure Context where
  name : String
  lifespanCount : Option Nat := none
  deriving DecidableEq, Repr

/-- JS `s.slice(-k)` for a count `k ≥ 0`: a negative start index clamps at the
head of the string, and `slice(-0)` is `slice(0)`, the whole string. -/
def jsSliceNeg (s : String) (k : Nat) : String :=
  if k = 0 then s else String.mk (s.data.drop (s.data.length - k))

/-- `WebhookClient.clearContext`: under v1 keep the contexts whose name
differs from the argument; under v2 keep those whose name sliced from the end
by the argument length differs from the argument; otherwise leave the set
unchanged (only a debug message is printed). -/
def clearContext (agentVersion : Option Nat) (ctxs : List Context)
    (context : String) : List Context :=
  if agentVersion = some 1 then
    ctxs.filter fun ctx => ctx.name != context
  else if agentVersion = some 2 then
    ctxs.filter fun ctx => jsSliceNeg ctx.name context.data.length != context
  else
    ctxs

/-- Optional argument of `WebhookClient.send_`: a single string or element, or
a JS array of strings and elements. -/
inductive SendArg where
  | single (a : AddArg)
  | arr (elems : List AddArg)
  deriving DecidableEq, Repr

/-- The platform-support guard of `send_`: throw only when a request source is
present, is not in the supported set and is not the unspecified sentinel. -/
def platformUnsupported (requestSource : Option String) : Bool :=
  match requestSource with
  | none => false
  | some s => !(SUPPORTED_RICH_MESSAGE_PLATFORMS.contains s) &&
      s != PLATFORM_UNSPECIFIED

/-- The leading-text injection of `send_`: when the request source is the
voice-assistant platform, `responseMessages_[0]` is truthy (the sequence is
nonempty), the first element is not a `Text`, and no `Payload` for that
platform exists, prepend a blank `Text` element. -/
def injectLeadingText (requestSource : Option String)
    (msgs : List RichResponse) : List RichResponse :=
  match msgs with
  | [] => msgs
  | first :: _ =>
    if requestSource == some ACTIONS_ON_GOOGLE && !(isText first) &&
        (existingPayload_ msgs ACTIONS_ON_GOOGLE).isNone then
      RichResponse.text " " :: msgs
    else
      msgs

/-- `WebhookClient.send_`.  The Version Adapter call `sendResponse_` is not
under src/ and is modelled from the spec: it serializes the accumulated
element sequence and writes it to the host response channel, modelled here as
returning that sequence.  The element-wise branch for an array argument tests
`response.isArray`; a JS array has no `isArray` property (it is a static of
`Array`), so that test is always falsy and the branch is never taken. -/
def send_ (requestSource : Option String) (msgs : List RichResponse)
    (response : Option SendArg) : Except String (List RichResponse) :=
  if platformUnsupported requestSource then
    .error "Platform is not supported."
  else
    let msgs := injectLeadingText requestSource msgs
    match response with
    | none => .ok msgs
    | some (.single a) => .ok (add msgs a)
    | some (.arr _) => .ok msgs

/-- The value an Express-style `response.status(v)` call stores: the code is
whatever argument was passed, a number or a string. -/
inductive StatusVal where
  | code (n : Nat)
  | msg (s : String)
  deriving DecidableEq, Repr

/-- The host response handle: its current status code, overwritten by each
`status` call. -/
structure HostResponse where
  statusCode : Option StatusVal := none
  deriving DecidableEq, Repr

/-- Express `response.status(v)`: store `v` as the status code and return the
response for chaining. -/
def setStatus (resp : HostResponse) (v : StatusVal) : HostResponse :=
  { resp with statusCode := some v }

/-- The request-scoped state of a `WebhookClient` that the dispatch and send
paths read. -/
structure Agent where
  agentVersion : Option Nat := none
  requestSource : Option String := none
  action : Option String := none
  responseMessages : List RichResponse := []

/-- Argument of `WebhookClient.handleRequest`: a single callback, a `Map` of
action names to callbacks (`none` keys the wildcard entry), or any other
value.  Handlers are modelled as synchronous state transformers; a
promise-returning handler is modelled by its settled effect. -/
inductive HandlerArg where
  | fn (f : Agent → Agent)
  | table (m : List (Option String × (Agent → Agent)))
  | invalid

/-- Run a matched handler, then `send_()` with no argument; a throw inside the
send step surfaces as a rejection. -/
def runHandlerAndSend (agent : Agent) (resp : HostResponse)
    (f : Agent → Agent) :
    Except String Unit × HostResponse × List (List RichResponse) :=
  let agent := f agent
  match send_ agent.requestSource agent.responseMessages none with
  | .ok sent => (.ok (), resp, [sent])
  | .error e => (.error e, resp, [])

/-- `WebhookClient.handleRequest`.  The triple returned is the settled result
of the promise, the final host response, and the element sequences handed to
the Version Adapter send path (one entry per send).  The no-handler branch
runs `response_.status(400).status('No handler for requested action')`: two
chained `status` calls, the second overwriting the first. -/
def handleRequest (agent : Agent) (resp : HostResponse) (handler : HandlerArg) :
    Except String Unit × HostResponse × List (List RichResponse) :=
  match handler with
  | .fn f => runHandlerAndSend agent resp f
  | .invalid =>
    (.error
      "handleRequest must contain a map of Dialogflow action names to function handlers",
     resp, [])
  | .table m =>
    match m.lookup agent.action with
    | some f => runHandlerAndSend agent resp f
    | none =>
      match m.lookup (none : Option String) with
      | some f => runHandlerAndSend agent resp f
      | none =>
        (.error "No handler for requested action",
         setStatus (setStatus resp (.code 400))
           (.msg "No handler for requested action"),
         [])

/-- The inbound payload, as far as the constructor inspects it: its top-level
`result` and `queryResult` fields (`none` models an absent field). -/
structure RequestBody where
  result : Option JsVal := none
  queryResult : Option JsVal := none
  deriving DecidableEq, Repr

/-- The constructor options: the host request handle (carrying the payload
body) and the host response handle; `none` models an absent handle. -/
structure WebhookOptions where
  request : Option RequestBody := none
  response : Option Unit := none
  deriving DecidableEq, Repr

/-- The version selection of the `WebhookClient` constructor: missing handles
throw; a truthy `body.result` selects v1, else a truthy `body.queryResult`
selects v2, else the constructor throws. -/
def constructAgentVersion (options : WebhookOptions) : Except String Nat :=
  match options.request with
  | none => .error "Request can NOT be empty."
  | some body =>
    match options.response with
    | none => .error "Response can NOT be empty."
    | some _ =>
      if truthyOpt body.result then .ok 1
      else if truthyOpt body.queryResult then .ok 2
      else
        .error
          "Invalid or unknown request type (not a Dialogflow v1 or v2 webhook request)."

/-- A context argument of `setContext`, before string wrapping (`name` is kept
as a JS value so that absent, empty and non-string names are expressible). -/
structure CtxObj where
  name : Option JsVal := none
  lifespanCount : Option Nat := none
  deriving DecidableEq, Repr

/-- Argument of `WebhookClient.setContext`: a string, an object, or a nullish
value (`null`/`undefined`). -/
inductive SetContextArg where
  | str (s : String)
  | obj (c : CtxObj)
  | nullish
  deriving DecidableEq, Repr

/-- `WebhookClient.setContext`: wrap a string into `{name}`; throw when the
resolved value is truthy but has no truthy name (`context && !context.name`);
otherwise hand the resolved value to `client.addContext_` — modelled from the
spec as appending to the outgoing set, so the returned `ok` value is what the
adapter receives (`ok none` means a nullish value was handed through). -/
def setContext (context : SetContextArg) : Except String (Option CtxObj) :=
  let ctx : Option CtxObj := match context with
    | .str s => some { name := some (JsVal.vStr s) }
    | .obj c => some c
    | .nullish => none
  match ctx with
  | some c =>
    if truthyOpt c.name = false then
      .error "context must be provided and must have a name"
    else
      .ok (some c)
  | none => .ok none

/-- A followup-event argument object (`name` kept as a JS value so that
absent, empty and non-string names are expressible). -/
structure EventObj where
  name : Option JsVal := none
  parameters : Option JsVal := none
  deriving DecidableEq, Repr

/-- Argument of `WebhookClient.setFollowupEvent`: a string or an object. -/
inductive EventArg where
  | str (s : String)
  | obj (e : EventObj)
  deriving DecidableEq, Repr

/-- `WebhookClient.setFollowupEvent`: wrap a string into `{name}` with no
validation; for an object, throw unless its `name` is a nonempty string
(`typeof event.name !== 'string' || !event.name`); the accepted event is
handed to `client.setFollowupEvent_` — modelled from the spec as recording it
verbatim, so the returned `ok` value is the recorded event. -/
def setFollowupEvent (event : EventArg) : Except String EventObj :=
  match event with
  | .str s => .ok { name := some (JsVal.vStr s) }
  | .obj e =>
    match e.name with
    | some (JsVal.vStr s) =>
      if s = "" then
        .error "Followup event must be a string or have a name string"
      else
        .ok e
    | _ => .error "Followup event must be a string or have a name string"

/-- C3 (code divergence): with a handler map that has no entry for the
dispatched action and no wildcard entry, `handleRequest` returns a rejected
result and invokes the send path zero times, but the chained
`status(400).status('No handler for requested action')` calls leave the host
response status set to the message string, not to 400. -/
theorem handleRequest_no_handler_status_overwrite :
    handleRequest { action := some "unknown" } { statusCode := none }
        (.table [(some "other", fun a => a)]) =
      (.error "No handler for requested action",
       { statusCode := some (.msg "No handler for requested action") }, []) ∧
    StatusVal.msg "No handler for requested action" ≠ StatusVal.code 400 :=
  ⟨rfl, by simp⟩

/-- C5 (code divergence): an array passed as the optional argument of `send_`
is silently dropped because `response.isArray` is undefined for a JS array
(`Array.isArray` was intended), while a scalar string argument is added; so
the accumulated-and-sent sequence for `send_(["hello"])` on an empty
accumulator is empty, not `[Text "hello"]`. -/
theorem send_array_argument_dropped :
    send_ none [] (some (.arr [.str "hello"])) = .ok [] ∧
    send_ none [] (some (.single (.str "hello"))) =
      .ok [RichResponse.text "hello"] :=
  ⟨rfl, rfl⟩

/-- C7 (code divergence): `setContext(null)` does not fail — the guard
`context && !context.name` is falsy for a nullish argument, so the nullish
value is handed to the adapter — while an object without a name does fail
with the documented error. -/
theorem setContext_null_bypasses_guard :
    setContext .nullish = .ok none ∧
    setContext (.obj { name := none }) =
      .error "context must be provided and must have a name" :=
  ⟨rfl, rfl⟩

/-- C9 (confirmed): with the voice-assistant request source and an empty
accumulated sequence, `send_` prepends nothing — `responseMessages_[0]` is
undefined, hence falsy — and serializes the empty sequence. -/
theorem send_aog_empty_serialized_empty :
    send_ (some ACTIONS_ON_GOOGLE) [] none = .ok [] := rfl

/-- C6 counterexample: a payload that does contain a top-level `result` field,
holding the falsy value `""`, does not yield protocol version 1 — construction
throws instead, because the version check is a truthiness test. -/
theorem construct_falsy_result_cex :
    ({ result := some (JsVal.vStr ""), queryResult := none } :
        RequestBody).result.isSome = true ∧
    constructAgentVersion
        { request := some { result := some (JsVal.vStr ""), queryResult := none },
          response := some () } =
      .error
        "Invalid or unknown request type (not a Dialogflow v1 or v2 webhook request)." :=
  ⟨rfl, rfl⟩

/-- C6 (amended): a truthy `result` field yields version 1; otherwise a truthy
`queryResult` yields version 2; when both are absent or falsy construction
throws, as it does for a missing request or response handle. -/
theorem construct_version_rules :
    (∀ body : RequestBody, truthyOpt body.result = true →
        constructAgentVersion { request := some body, response := some () } =
          .ok 1) ∧
    (∀ body : RequestBody, truthyOpt body.result = false →
        truthyOpt body.queryResult = true →
        constructAgentVersion { request := some body, response := some () } =
          .ok 2) ∧
    (∀ body : RequestBody, truthyOpt body.result = false →
        truthyOpt body.queryResult = false →
        constructAgentVersion { request := some body, response := some () } =
          .error
            "Invalid or unknown request type (not a Dialogflow v1 or v2 webhook request).") ∧
    (∀ response : Option Unit,
        constructAgentVersion { request := none, response := response } =
          .error "Request can NOT be empty.") ∧
    (∀ body : RequestBody,
        constructAgentVersion { request := some body, response := none } =
          .error "Response can NOT be empty.") := by
  refine ⟨fun body h1 => ?_, fun body h1 h2 => ?_, fun body h1 h2 => ?_,
    fun response => ?_, fun body => ?_⟩ <;>
    simp [constructAgentVersion, *]

/-- Witness for `construct_version_rules` at a concrete v1-shaped payload. -/
theorem construct_version_rules_witness :
    constructAgentVersion
        { request := some { result := some JsVal.vObj, queryResult := none },
          response := some () } = .ok 1 :=
  construct_version_rules.1 { result := some JsVal.vObj, queryResult := none } rfl

/-- C8 counterexample: a payload containing both fields, `result` being the
falsy value `null` and `queryResult` truthy, selects version 2, not
version 1. -/
theorem construct_both_fields_cex :
    ({ result := some JsVal.vNull, queryResult := some JsVal.vObj } :
        RequestBody).result.isSome = true ∧
    ({ result := some JsVal.vNull, queryResult := some JsVal.vObj } :
        RequestBody).queryResult.isSome = true ∧
    constructAgentVersion
        { request := some { result := some JsVal.vNull,
                            queryResult := some JsVal.vObj },
          response := some () } = .ok 2 ∧
    (Except.ok 2 : Except String Nat) ≠ .ok 1 :=
  ⟨rfl, rfl, rfl, by simp⟩

/-- C8 (amended): a truthy `result` field takes precedence (in particular when
both fields are present and truthy, version 1 is selected), and version 2 is
selected only when `result` is absent or falsy and `queryResult` is truthy. -/
theorem construct_result_precedence :
    (∀ body : RequestBody, truthyOpt body.result = true →
        constructAgentVersion { request := some body, response := some () } =
          .ok 1) ∧
    (∀ body : RequestBody,
        constructAgentVersion { request := some body, response := some () } =
            .ok 2 →
        truthyOpt body.result = false ∧ truthyOpt body.queryResult = true) := by
  constructor
  · intro body h1
    simp [constructAgentVersion, h1]
  · intro body h
    cases hr : truthyOpt body.result with
    | true => rw [constructAgentVersion] at h; simp [hr] at h
    | false =>
      cases hq : truthyOpt body.queryResult with
      | true => exact ⟨rfl, rfl⟩
      | false => rw [constructAgentVersion] at h; simp [hr, hq] at h

/-- Witness for `construct_result_precedence` at a payload carrying both
fields truthy. -/
theorem construct_result_precedence_witness :
    constructAgentVersion
        { request := some { result := some JsVal.vObj,
                            queryResult := some JsVal.vObj },
          response := some () } = .ok 1 :=
  construct_result_precedence.1
    { result := some JsVal.vObj, queryResult := some JsVal.vObj } rfl

/-- C10 (confirmed): `setFollowupEvent("")` succeeds and records an event
whose name is the empty string (the string path has no validation), while an
object whose name is absent, empty, or not a string throws. -/
theorem setFollowupEvent_empty_string_ok :
    setFollowupEvent (.str "") = .ok { name := some (JsVal.vStr "") } ∧
    (∀ e : EventObj,
      (∀ s : String, e.name = some (JsVal.vStr s) → s = "") →
      setFollowupEvent (.obj e) =
        .error "Followup event must be a string or have a name string") := by
  constructor
  · rfl
  · intro e h
    cases e with
    | mk nm params =>
      cases nm with
      | none => rfl
      | some v =>
        cases v with
        | vStr s =>
          have hs := h s rfl
          subst hs
          rfl
        | vNull => rfl
        | vBool b => rfl
        | vNum n => rfl
        | vObj => rfl

/-- Witness for `setFollowupEvent_empty_string_ok` at an object with no
name. -/
theorem setFollowupEvent_empty_string_ok_witness :
    setFollowupEvent (.obj { name := none }) =
      .error "Followup event must be a string or have a name string" :=
  setFollowupEvent_empty_string_ok.2 { name := none } (fun _ h => nomatch h)

lemma string_mk_eq_iff (l : List Char) (s : String) :
    String.mk l = s ↔ l = s.data := by
  cases s
  exact ⟨fun h => by injection h, fun h => by rw [h]⟩

lemma data_ne_nil_of_ne_empty {s : String} (h : s ≠ "") : s.data ≠ [] := by
  intro hd
  apply h
  cases s
  simp at hd
  simp [hd]

/-- For a nonempty pattern, the v2 slice test of `clearContext` is exactly the
suffix relation on the underlying character lists. -/
lemma jsSliceNeg_eq_iff (s ctx : String) (h : ctx ≠ "") :
    jsSliceNeg s ctx.data.length = ctx ↔ ctx.data <:+ s.data := by
  have hk : ctx.data.length ≠ 0 := fun h0 =>
    data_ne_nil_of_ne_empty h (List.length_eq_zero.mp h0)
  rw [jsSliceNeg, if_neg hk, string_mk_eq_iff]
  constructor
  · intro he
    exact List.suffix_iff_eq_drop.mpr he.symm
  · intro hs
    exact (List.suffix_iff_eq_drop.mp hs).symm

/-- Boolean form of `jsSliceNeg_eq_iff`, matching the filter conditions. -/
lemma jsSliceNeg_bne_eq (s ctx : String) (h : ctx ≠ "") :
    (jsSliceNeg s ctx.data.length != ctx) = !(ctx.data.isSuffixOf s.data) := by
  have h1 : (jsSliceNeg s ctx.data.length == ctx) = ctx.data.isSuffixOf s.data := by
    rw [Bool.eq_iff_iff, beq_iff_eq, List.isSuffixOf_iff_suffix]
    exact jsSliceNeg_eq_iff s ctx h
  rw [bne, h1]

/-- C2 (amended): under v2, for every nonempty short name, exactly the
outgoing contexts whose name ends with the given name are removed (a name
that merely contains it is kept); the empty short name removes exactly the
contexts whose name is the empty string; under v1, exactly the contexts whose
name equals the given name are removed. -/
theorem clearContext_match_semantics (ctxs : List Context) (context : String) :
    (context ≠ "" →
      clearContext (some 2) ctxs context =
        ctxs.filter fun ctx => !(context.data.isSuffixOf ctx.name.data)) ∧
    clearContext (some 2) ctxs "" = (ctxs.filter fun ctx => ctx.name != "") ∧
    clearContext (some 1) ctxs context =
      (ctxs.filter fun ctx => ctx.name != context) := by
  refine ⟨fun h => ?_, ?_, ?_⟩
  · have hv : clearContext (some 2) ctxs context =
        ctxs.filter fun ctx =>
          jsSliceNeg ctx.name context.data.length != context := by
      simp [clearContext]
    rw [hv]
    exact List.filter_congr fun c _ => jsSliceNeg_bne_eq c.name context h
  · have hz : ("" : String).data.length = 0 := rfl
    simp [clearContext, jsSliceNeg, hz]
  · simp [clearContext]

/-- Witness for `clearContext_match_semantics`: the v2 clear of `"foo"`
removes the fully-qualified and the exact match and keeps `"foobar"`. -/
theorem clearContext_match_semantics_witness :
    clearContext (some 2)
        [{ name := "projects/x/agent/sessions/y/contexts/foo" },
         { name := "foo" }, { name := "foobar" }] "foo" =
      [{ name := "foobar" }] := by
  rw [(clearContext_match_semantics
      [{ name := "projects/x/agent/sessions/y/contexts/foo" },
       { name := "foo" }, { name := "foobar" }] "foo").1 (by decide)]
  rfl

/-- C2 counterexample: under v2 the empty short name is a suffix of every
name, yet `clearContext("")` keeps a context named `"x"`. -/
theorem clearContext_empty_name_cex :
    clearContext (some 2) [{ name := "x" }] "" = [{ name := "x" }] ∧
    ("" : String).data.isSuffixOf ("x" : String).data = true :=
  ⟨rfl, rfl⟩

/-- C4 (confirmed): with the voice-assistant request source, a nonempty
accumulated sequence and no payload for that platform, `send_` prepends the
blank `Text` element exactly when the first element is not a `Text`. -/
theorem send_aog_leading_text (first : RichResponse) (rest : List RichResponse)
    (hp : existingPayload_ (first :: rest) ACTIONS_ON_GOOGLE = none) :
    (isText first = false →
      send_ (some ACTIONS_ON_GOOGLE) (first :: rest) none =
        .ok (RichResponse.text " " :: first :: rest)) ∧
    (isText first = true →
      send_ (some ACTIONS_ON_GOOGLE) (first :: rest) none =
        .ok (first :: rest)) := by
  have hplat : platformUnsupported (some ACTIONS_ON_GOOGLE) = false := by decide
  constructor <;> intro h <;>
    simp [send_, hplat, injectLeadingText, h, hp]

/-- Witness for `send_aog_leading_text`: an image-first sequence gets the
blank leading text. -/
theorem send_aog_leading_text_witness :
    send_ (some ACTIONS_ON_GOOGLE) [RichResponse.image "http://i"] none =
      .ok [RichResponse.text " ", RichResponse.image "http://i"] :=
  (send_aog_leading_text (RichResponse.image "http://i") [] rfl).1 rfl

lemma suggsOf_append (s t : List RichResponse) :
    suggsOf (s ++ t) = suggsOf s ++ suggsOf t := by
  simp [suggsOf, List.filterMap_append]

lemma platformMatch_self (p : String) : platformMatch p p = true := by
  simp [platformMatch]

lemma mem_suggsOf_of_mem {s : List RichResponse} {q : String}
    {rep : List String} (hx : RichResponse.suggestions q rep ∈ s) :
    (q, rep) ∈ suggsOf s := by
  rw [suggsOf, List.mem_filterMap]
  exact ⟨_, hx, rfl⟩

lemma mem_of_mem_suggsOf {s : List RichResponse} {q : String}
    {rep : List String} (h : (q, rep) ∈ suggsOf s) :
    RichResponse.suggestions q rep ∈ s := by
  rw [suggsOf, List.mem_filterMap] at h
  obtain ⟨r, hr, he⟩ := h
  cases r <;> simp_all

lemma existingSuggestion_of_no_sugg {s : List RichResponse} (p : String)
    (h : suggsOf s = []) : existingSuggestion_ s p = none := by
  rw [existingSuggestion_, List.find?_eq_none]
  intro x hx
  cases x with
  | suggestions q rep =>
    have hmem := mem_suggsOf_of_mem hx
    rw [h] at hmem
    simp at hmem
  | text t => simp
  | card a b c => simp
  | image u => simp
  | payload a b => simp

lemma existingSuggestion_isSome {s : List RichResponse} {p : String}
    {rep : List String} (hx : RichResponse.suggestions p rep ∈ s) :
    (existingSuggestion_ s p).isSome = true := by
  rw [existingSuggestion_, List.find?_isSome]
  exact ⟨_, hx, platformMatch_self p⟩

lemma mergeFirstSugg_suggsOf {s : List RichResponse} {p : String}
    {R rep : List String} (h : suggsOf s = [(p, R)]) :
    suggsOf (mergeFirstSugg s p rep) = [(p, R ++ rep.take 1)] := by
  induction s with
  | nil => simp [suggsOf] at h
  | cons r rest ih =>
    cases r with
    | suggestions q replies =>
      have hstep : suggsOf (RichResponse.suggestions q replies :: rest) =
          (q, replies) :: suggsOf rest := rfl
      rw [hstep] at h
      injection h with h1 h2
      injection h1 with hq hrep
      subst hq
      subst hrep
      have hmerge : mergeFirstSugg (RichResponse.suggestions q replies :: rest)
            q rep =
          if platformMatch q q then
            RichResponse.suggestions q (replies ++ rep.take 1) :: rest
          else
            RichResponse.suggestions q replies :: mergeFirstSugg rest q rep :=
        rfl
      rw [hmerge, if_pos (platformMatch_self q)]
      have hout : suggsOf
            (RichResponse.suggestions q (replies ++ rep.take 1) :: rest) =
          (q, replies ++ rep.take 1) :: suggsOf rest := rfl
      rw [hout, h2]
    | text t => exact ih h
    | card a b c => exact ih h
    | image u => exact ih h
    | payload a b => exact ih h

/-- Once the accumulator holds exactly one `Suggestions` element, tagged `p`,
a sequence of adds whose `Suggestions` elements all carry tag `p` keeps it
unique and appends the first reply of each such add. -/
lemma suggsOf_addAll_merged (adds : List AddArg) :
    ∀ (s : List RichResponse) (p : String) (R : List String),
      (suggAdds adds).all (fun pr => pr.1 == p) = true →
      suggsOf s = [(p, R)] →
      suggsOf (addAll s adds) =
        [(p, R ++ (suggAdds adds).flatMap fun pr => pr.2.take 1)] := by
  induction adds with
  | nil =>
    intro s p R _ hs
    simpa [addAll, suggAdds] using hs
  | cons a tl ih =>
    intro s p R hall hs
    have hfold : addAll s (a :: tl) = addAll (add s a) tl := rfl
    rw [hfold]
    cases a with
    | str t =>
      have hadd : add s (AddArg.str t) = s ++ [RichResponse.text t] := rfl
      have hs' : suggsOf (add s (AddArg.str t)) = [(p, R)] := by
        rw [hadd, suggsOf_append, hs]
        rfl
      have hsa : suggAdds (AddArg.str t :: tl) = suggAdds tl := rfl
      rw [hsa] at hall ⊢
      exact ih (add s (AddArg.str t)) p R hall hs'
    | rich r =>
      cases r with
      | suggestions q rep =>
        have hsa :
            suggAdds (AddArg.rich (RichResponse.suggestions q rep) :: tl) =
              (q, rep) :: suggAdds tl := rfl
        rw [hsa] at hall ⊢
        rw [List.all_cons, Bool.and_eq_true] at hall
        obtain ⟨hq0, hall'⟩ := hall
        have hq : q = p := by simpa using hq0
        subst hq
        have hmem : RichResponse.suggestions q R ∈ s :=
          mem_of_mem_suggsOf (by rw [hs]; exact List.mem_singleton_self _)
        have hsome := existingSuggestion_isSome hmem
        have hadd : add s (AddArg.rich (RichResponse.suggestions q rep)) =
            mergeFirstSugg s q rep := by
          simp [add, hsome]
        have hs' : suggsOf (mergeFirstSugg s q rep) = [(q, R ++ rep.take 1)] :=
          mergeFirstSugg_suggsOf hs
        rw [hadd]
        rw [ih (mergeFirstSugg s q rep) q (R ++ rep.take 1) hall' hs']
        simp [List.append_assoc]
      | text t =>
        have hadd : add s (AddArg.rich (RichResponse.text t)) =
            s ++ [RichResponse.text t] := rfl
        have hs' : suggsOf (add s (AddArg.rich (RichResponse.text t))) =
            [(p, R)] := by
          rw [hadd, suggsOf_append, hs]
          rfl
        exact ih _ p R hall hs'
      | card a b c =>
        have hadd : add s (AddArg.rich (RichResponse.card a b c)) =
            s ++ [RichResponse.card a b c] := rfl
        have hs' : suggsOf (add s (AddArg.rich (RichResponse.card a b c))) =
            [(p, R)] := by
          rw [hadd, suggsOf_append, hs]
          rfl
        exact ih _ p R hall hs'
      | image u =>
        have hadd : add s (AddArg.rich (RichResponse.image u)) =
            s ++ [RichResponse.image u] := rfl
        have hs' : suggsOf (add s (AddArg.rich (RichResponse.image u))) =
            [(p, R)] := by
          rw [hadd, suggsOf_append, hs]
          rfl
        exact ih _ p R hall hs'
      | payload a b =>
        have hadd : add s (AddArg.rich (RichResponse.payload a b)) =
            s ++ [RichResponse.payload a b] := rfl
        have hs' : suggsOf (add s (AddArg.rich (RichResponse.payload a b))) =
            [(p, R)] := by
          rw [hadd, suggsOf_append, hs]
          rfl
        exact ih _ p R hall hs'

/-- From an accumulator holding no `Suggestions` element, a sequence of adds
whose `Suggestions` elements all carry tag `p` produces exactly one
`Suggestions` element: the first such add, extended by the first reply of
each later one. -/
lemma suggsOf_addAll_from_empty (adds : List AddArg) :
    ∀ (s : List RichResponse) (p : String) (l0 : List String)
      (rest : List (String × List String)),
      (suggAdds adds).all (fun pr => pr.1 == p) = true →
      suggAdds adds = (p, l0) :: rest →
      suggsOf s = [] →
      suggsOf (addAll s adds) =
        [(p, l0 ++ rest.flatMap fun pr => pr.2.take 1)] := by
  induction adds with
  | nil =>
    intro s p l0 rest _ hsplit _
    simp [suggAdds] at hsplit
  | cons a tl ih =>
    intro s p l0 rest hall hsplit hs
    have hfold : addAll s (a :: tl) = addAll (add s a) tl := rfl
    rw [hfold]
    cases a with
    | str t =>
      have hadd : add s (AddArg.str t) = s ++ [RichResponse.text t] := rfl
      have hs' : suggsOf (add s (AddArg.str t)) = [] := by
        rw [hadd, suggsOf_append, hs]
        rfl
      exact ih _ p l0 rest hall hsplit hs'
    | rich r =>
      cases r with
      | suggestions q rep =>
        have hsa :
            suggAdds (AddArg.rich (RichResponse.suggestions q rep) :: tl) =
              (q, rep) :: suggAdds tl := rfl
        rw [hsa] at hall hsplit
        injection hsplit with h1 h2
        injection h1 with hq hrep
        subst hq
        subst hrep
        rw [List.all_cons, Bool.and_eq_true] at hall
        obtain ⟨_, hall'⟩ := hall
        have hnone := existingSuggestion_of_no_sugg q hs
        have hadd : add s (AddArg.rich (RichResponse.suggestions q rep)) =
            s ++ [RichResponse.suggestions q rep] := by
          simp [add, hnone]
        have hs' : suggsOf (add s (AddArg.rich (RichResponse.suggestions q rep))) =
            [(q, rep)] := by
          rw [hadd, suggsOf_append, hs]
          rfl
        rw [suggsOf_addAll_merged tl _ q rep hall' hs', h2]
      | text t =>
        have hadd : add s (AddArg.rich (RichResponse.text t)) =
            s ++ [RichResponse.text t] := rfl
        have hs' : suggsOf (add s (AddArg.rich (RichResponse.text t))) = [] := by
          rw [hadd, suggsOf_append, hs]
          rfl
        exact ih _ p l0 rest hall hsplit hs'
      | card a b c =>
        have hadd : add s (AddArg.rich (RichResponse.card a b c)) =
            s ++ [RichResponse.card a b c] := rfl
        have hs' : suggsOf (add s (AddArg.rich (RichResponse.card a b c))) =
            [] := by
          rw [hadd, suggsOf_append, hs]
          rfl
        exact ih _ p l0 rest hall hsplit hs'
      | image u =>
        have hadd : add s (AddArg.rich (RichResponse.image u)) =
            s ++ [RichResponse.image u] := rfl
        have hs' : suggsOf (add s (AddArg.rich (RichResponse.image u))) =
            [] := by
          rw [hadd, suggsOf_append, hs]
          rfl
        exact ih _ p l0 rest hall hsplit hs'
      | payload a b =>
        have hadd : add s (AddArg.rich (RichResponse.payload a b)) =
            s ++ [RichResponse.payload a b] := rfl
        have hs' : suggsOf (add s (AddArg.rich (RichResponse.payload a b))) =
            [] := by
          rw [hadd, suggsOf_append, hs]
          rfl
        exact ih _ p l0 rest hall hsplit hs'

/-- C1 (amended): for every sequence of `add` calls whose `Suggestions`
elements all carry the same platform tag and at least one reply each, with at
least two such elements, the final accumulated sequence contains exactly one
`Suggestions` element; it carries that tag and its reply list is the first
added reply list followed by the first reply of each subsequently added
`Suggestions` element, in call order. -/
theorem add_merge_single_tag (adds : List AddArg) (p : String)
    (l0 : List String) (rest : List (String × List String))
    (hall : (suggAdds adds).all (fun pr => pr.1 == p) = true)
    (hsplit : suggAdds adds = (p, l0) :: rest)
    (_htwo : rest ≠ [])
    (_hne : (suggAdds adds).all (fun pr => !pr.2.isEmpty) = true) :
    suggsOf (addAll [] adds) =
      [(p, l0 ++ rest.flatMap fun pr => pr.2.take 1)] :=
  suggsOf_addAll_from_empty adds [] p l0 rest hall hsplit rfl

/-- Witness for `add_merge_single_tag`: two same-tag suggestion adds with a
text add between them merge into one element. -/
theorem add_merge_single_tag_witness :
    suggsOf (addAll []
        [.rich (.suggestions "SLACK" ["a"]), .str "hi",
         .rich (.suggestions "SLACK" ["b"])]) = [("SLACK", ["a", "b"])] := by
  rw [add_merge_single_tag
      [.rich (.suggestions "SLACK" ["a"]), .str "hi",
       .rich (.suggestions "SLACK" ["b"])] "SLACK" ["a"] [("SLACK", ["b"])]
      (by decide) (by decide) (by decide) (by decide)]
  rfl

/-- C1 counterexample: merging a two-reply `Suggestions` element transfers
only its first reply, so the final reply list is not the concatenation of the
added reply lists. -/
theorem add_merge_headOnly_cex :
    addAll []
        [.rich (.suggestions "SLACK" ["a"]),
         .rich (.suggestions "SLACK" ["b", "c"])] =
      [RichResponse.suggestions "SLACK" ["a", "b"]] ∧
    (["a", "b"] : List String) ≠ ["a"] ++ ["b", "c"] :=
  ⟨rfl, by decide⟩

end DF
